import Mathlib

/-!
Verification development for the socket-table sampling engine of the
uroboros process monitor (package `host`, file `network.go`) and the
process-search startup logic (`main.go`).

Go strings are modelled as Lean `String`, Go `uint` as `Nat`, Go `int` as
`Int`, `net.IP` as a `List Nat` of bytes in display order, and Go maps as
association lists whose `lookup`/`size` match Go map semantics.  Fallible
Go code (which either returns an `error` or panics at runtime) is modelled
with `Except ParseError`, where `ParseError.malformedLine` is a returned
error value and `ParseError.panic` is a Go runtime panic.
-/

/-- Go `unicode.IsSpace` restricted to the ASCII whitespace that occurs in
the kernel tables. -/
def isSpaceChar (c : Char) : Bool := c = ' ' || c = '\t' || c = '\n' || c = '\r'

/-- Accumulator loop for `goFields`. -/
def fieldsAux : List Char → List Char → List String
  | [], acc => if acc.isEmpty then [] else [⟨acc.reverse⟩]
  | c :: cs, acc =>
    if isSpaceChar c then
      if acc.isEmpty then fieldsAux cs [] else ⟨acc.reverse⟩ :: fieldsAux cs []
    else fieldsAux cs (c :: acc)

/-- Go `strings.Fields`: split around runs of whitespace, producing no empty
fields. -/
def goFields (s : String) : List String := fieldsAux s.data []

/-- Accumulator loop for `goSplitColon`. -/
def splitColonAux : List Char → List Char → List String
  | [], acc => [⟨acc.reverse⟩]
  | c :: cs, acc =>
    if c = ':' then ⟨acc.reverse⟩ :: splitColonAux cs [] else splitColonAux cs (c :: acc)

/-- Go `strings.Split(s, ":")`: split on every colon, keeping empty parts;
the result is never the empty list. -/
def goSplitColon (s : String) : List String := splitColonAux s.data []

/-- Trim of `islazy/str.Trim`: drop leading and trailing whitespace. -/
def goTrim (s : String) : String :=
  ⟨((s.data.dropWhile isSpaceChar).reverse.dropWhile isSpaceChar).reverse⟩

/-- Loop for `goContains`: does the needle occur at any position of the
haystack? -/
def containsAux : List Char → List Char → Bool
  | [], needle => needle.isEmpty
  | c :: t, needle => needle.isPrefixOf (c :: t) || containsAux t needle

/-- Go `strings.Index(s, sub) != -1`, i.e. substring occurrence. -/
def goContains (s sub : String) : Bool := containsAux s.data sub.data

/-- A Go runtime panic raised while decoding one line. -/
inductive GoPanic where
  /-- Slice index out of range, as raised by `local[1]` / `remote[1]`. -/
  | indexOutOfRange (i len : Nat)
  /-- A numeric-conversion failure (`strconv` error), fatal for the line. -/
  | badNumber (s : String)
deriving DecidableEq, Repr

/-- Outcome of decoding one kernel table line: either a returned error value
(`malformedLine`, carrying the file name, the field count printed in the
message, and the line content) or a runtime panic. -/
inductive ParseError where
  /-- The decoder's own `fmt.Errorf("could not parse netstat line from %s
  (got %d fields): %s", ...)` error value. -/
  | malformedLine (filename : String) (reportedFields : Nat) (line : String)
  /-- A Go runtime panic (index out of range, conversion failure). -/
  | panic (p : GoPanic)
deriving DecidableEq, Repr

/-- Decidable equality on `Except`, for evaluating decoders on concrete
inputs. -/
instance {ε α : Type} [DecidableEq ε] [DecidableEq α] : DecidableEq (Except ε α) := fun a b =>
  match a, b with
  | .ok x, .ok y =>
    if h : x = y then .isTrue (by rw [h]) else .isFalse (fun hh => by cases hh; exact h rfl)
  | .error x, .error y =>
    if h : x = y then .isTrue (by rw [h]) else .isFalse (fun hh => by cases hh; exact h rfl)
  | .ok _, .error _ => .isFalse (fun hh => by cases hh)
  | .error _, .ok _ => .isFalse (fun hh => by cases hh)

/-- Go slice indexing `l[i]`: panics with index-out-of-range when `i` is not
a valid index. -/
def listIdx (l : List String) (i : Nat) : Except ParseError String :=
  match l[i]? with
  | some s => .ok s
  | none => .error (.panic (.indexOutOfRange i l.length))

/-- Value of one hexadecimal digit. -/
def hexDigit (c : Char) : Option Nat :=
  if '0' ≤ c ∧ c ≤ '9' then some (c.toNat - '0'.toNat)
  else if 'a' ≤ c ∧ c ≤ 'f' then some (c.toNat - 'a'.toNat + 10)
  else if 'A' ≤ c ∧ c ≤ 'F' then some (c.toNat - 'A'.toNat + 10)
  else none

/-- Big-endian accumulation of hexadecimal digits. -/
def hexNatAux : List Char → Nat → Option Nat
  | [], acc => some acc
  | c :: cs, acc =>
    match hexDigit c with
    | some d => hexNatAux cs (acc * 16 + d)
    | none => none

/-- Modelled from the spec: `hexToInt` of the `host` package is not under
`src/`; per §4.1 a hexadecimal column is converted to an unsigned integer
and a failed hex-to-integer conversion is a fatal parse failure for the
line (modelled as a panic), not a skip. -/
def hexToInt (s : String) : Except ParseError Nat :=
  if s.data.isEmpty then .error (.panic (.badNumber s))
  else
    match hexNatAux s.data 0 with
    | some n => .ok n
    | none => .error (.panic (.badNumber s))

/-- Value of one decimal digit. -/
def decDigit (c : Char) : Option Nat :=
  if '0' ≤ c ∧ c ≤ '9' then some (c.toNat - '0'.toNat) else none

/-- Big-endian accumulation of decimal digits. -/
def decNatAux : List Char → Nat → Option Nat
  | [], acc => some acc
  | c :: cs, acc =>
    match decDigit c with
    | some d => decNatAux cs (acc * 10 + d)
    | none => none

/-- Modelled from the spec: `decToInt` of the `host` package is not under
`src/`; per §4.1 a decimal column (uid, inode) is converted to an integer
and a failed conversion is a fatal parse failure for the line (modelled as
a panic). An optional leading sign is accepted as by `strconv.ParseInt`. -/
def decToInt (s : String) : Except ParseError Int :=
  match s.data with
  | [] => .error (.panic (.badNumber s))
  | c :: rest =>
    if c = '-' then
      if rest.isEmpty then .error (.panic (.badNumber s))
      else
        match decNatAux rest 0 with
        | some n => .ok (-(n : Int))
        | none => .error (.panic (.badNumber s))
    else
      match decNatAux (c :: rest) 0 with
      | some n => .ok (n : Int)
      | none => .error (.panic (.badNumber s))

/-- Pairs of hexadecimal digits decoded to bytes, in string order. -/
def hexBytes : List Char → Option (List Nat)
  | [] => some []
  | [_] => none
  | c1 :: c2 :: rest =>
    match hexDigit c1, hexDigit c2, hexBytes rest with
    | some h, some l, some bs => some ((h * 16 + l) :: bs)
    | _, _, _ => none

/-- Modelled from the spec: `hexToIP` of the `host` package is not under
`src/`; per §4.1 an address column is packed hexadecimal with the bytes
reversed, decoded via hex-to-binary conversion; a conversion failure is
fatal for the line. The resulting `net.IP` is modelled as its byte list in
display order. -/
def hexToIP (s : String) : Except ParseError (List Nat) :=
  match hexBytes s.data with
  | some bs => .ok bs.reverse
  | none => .error (.panic (.badNumber s))

/-- Kernel TCP states, `include/net/tcp_states.h` (iota + 1). -/
def TCP_ESTABLISHED : Nat := 1
/-- Kernel TCP state 2. -/
def TCP_SYN_SENT : Nat := 2
/-- Kernel TCP state 3. -/
def TCP_SYN_RECV : Nat := 3
/-- Kernel TCP state 4. -/
def TCP_FIN_WAIT1 : Nat := 4
/-- Kernel TCP state 5. -/
def TCP_FIN_WAIT2 : Nat := 5
/-- Kernel TCP state 6. -/
def TCP_TIME_WAIT : Nat := 6
/-- Kernel TCP state 7. -/
def TCP_CLOSE : Nat := 7
/-- Kernel TCP state 8. -/
def TCP_CLOSE_WAIT : Nat := 8
/-- Kernel TCP state 9. -/
def TCP_LAST_ACK : Nat := 9
/-- Kernel TCP state 10. -/
def TCP_LISTEN : Nat := 10
/-- Kernel TCP state 11. -/
def TCP_CLOSING : Nat := 11
/-- Kernel TCP state 12. -/
def TCP_NEW_SYN_RECV : Nat := 12

/-- The `sockStates` Go map; lookup of an absent key yields the zero value
`""`, as for a Go `map[uint]string`. -/
def sockStates (s : Nat) : String :=
  if s = TCP_ESTABLISHED then "ESTABLISHED"
  else if s = TCP_SYN_SENT then "SYN_SENT"
  else if s = TCP_SYN_RECV then "SYN_RECV"
  else if s = TCP_FIN_WAIT1 then "FIN_WAIT1"
  else if s = TCP_FIN_WAIT2 then "FIN_WAIT2"
  else if s = TCP_TIME_WAIT then "TIME_WAIT"
  else if s = TCP_CLOSE then "CLOSE"
  else if s = TCP_CLOSE_WAIT then "CLOSE_WAIT"
  else if s = TCP_LAST_ACK then "LAST_ACK"
  else if s = TCP_LISTEN then "LISTENING"
  else if s = TCP_CLOSING then "CLOSING"
  else if s = TCP_NEW_SYN_RECV then "NEW_SYN_RECV"
  else ""

/-- The `sockTypes` Go map; lookup of an absent key yields `""`. -/
def sockTypes (t : Nat) : String :=
  if t = 1 then "SOCK_STREAM"
  else if t = 2 then "SOCK_DGRAM"
  else if t = 5 then "SOCK_SEQPACKET"
  else ""

/-- The `NetworkEntry` Go struct; fields not set by a decoder keep their Go
zero value. The Go field `Type` is spelled `Typ` because `Type` is reserved
in Lean. -/
structure NetworkEntry where
  Proto : String := ""
  Typ : Nat := 0
  TypeString : String := ""
  Groups : String := ""
  Path : String := ""
  State : Nat := 0
  StateString : String := ""
  SrcIP : List Nat := []
  SrcPort : Nat := 0
  DstIP : List Nat := []
  DstPort : Nat := 0
  UserId : Int := 0
  INode : Int := 0
deriving DecidableEq, Repr

/-- `parseIP`, the decoder for the IP-based families (`tcp`, `tcp6`, `udp`,
`udp6`). Effectful steps appear in Go evaluation order: the `<10`-field
check, `hexToInt(fields[3])`, then the struct literal's conversions. -/
def parseIP (filename line protocol : String) : Except ParseError NetworkEntry :=
  let fields := goFields line
  if fields.length < 10 then
    .error (.malformedLine filename fields.length line)
  else
    let locA := goSplitColon (fields.getD 1 "")
    let remA := goSplitColon (fields.getD 2 "")
    do
      let sockState ← hexToInt (fields.getD 3 "")
      let srcIP ← hexToIP (← listIdx locA 0)
      let srcPort ← hexToInt (← listIdx locA 1)
      let dstIP ← hexToIP (← listIdx remA 0)
      let dstPort ← hexToInt (← listIdx remA 1)
      let userId ← decToInt (fields.getD 7 "")
      let inode ← decToInt (fields.getD 9 "")
      pure { Proto := protocol, SrcIP := srcIP, SrcPort := srcPort,
             DstIP := dstIP, DstPort := dstPort, State := sockState,
             StateString := sockStates sockState, UserId := userId,
             INode := inode }

/-- `parseUnix`, the decoder for `/proc/net/unix` lines. Note the error
message prints the literal `7`, not the observed field count. -/
def parseUnix (filename line protocol : String) : Except ParseError NetworkEntry :=
  let fields := goFields line
  let num := fields.length
  if num < 7 then
    .error (.malformedLine filename 7 line)
  else
    do
      let sockType ← hexToInt (fields.getD 4 "")
      let sockState ← hexToInt (fields.getD 5 "")
      let path := if num > 7 then fields.getD 7 "" else ""
      let inode ← decToInt (fields.getD 6 "")
      pure { Proto := protocol, Typ := sockType, TypeString := sockTypes sockType,
             State := sockState, StateString := sockStates sockState,
             INode := inode, Path := path }

/-- `parseNetlink`, the decoder for `/proc/net/netlink` lines. Note the
error message prints the literal `7` although the minimum is 10. -/
def parseNetlink (filename line protocol : String) : Except ParseError NetworkEntry :=
  let fields := goFields line
  let num := fields.length
  if num < 10 then
    .error (.malformedLine filename 7 line)
  else
    do
      let inode ← decToInt (fields.getD 9 "")
      pure { Proto := protocol, Groups := fields.getD 3 "", INode := inode }

/-- The package-level `ProcFS` root. Modelled from the spec: the default is
the system-standard location; it is configurable at startup but constant
during a build, so it is a constant here. -/
def ProcFS : String := "/proc"

/-- The file name `fmt.Sprintf("%s/net/%s", ProcFS, proto)`. -/
def filenameFor (proto : String) : String := ProcFS ++ "/net/" ++ proto

/-- Dispatch of `parseNetworkForProtocol`'s loop body: `unix` and `netlink`
have dedicated decoders, every other family uses `parseIP`. -/
def decodeLine (proto filename line : String) : Except ParseError NetworkEntry :=
  if proto = "unix" then parseUnix filename line proto
  else if proto = "netlink" then parseNetlink filename line proto
  else parseIP filename line proto

/-- The scan loop of `parseNetworkForProtocol` over the data lines (header
already removed): each line is trimmed and decoded; a decode error is a Go
`panic(err)`, so it aborts the whole scan with no entries. -/
def scanLines (proto filename : String) : List String → Except ParseError (List NetworkEntry)
  | [] => .ok []
  | l :: rest =>
    match decodeLine proto filename (goTrim l) with
    | .error e => .error e
    | .ok entry =>
      match scanLines proto filename rest with
      | .error e => .error e
      | .ok entries => .ok (entry :: entries)

/-- Result of `parseNetworkForProtocol`: the open error, a decoder panic, or
the collected entries. -/
inductive ScanResult where
  /-- `os.Open` failed (the table file is absent); the error is returned. -/
  | ioError (filename : String)
  /-- A decoder error was raised as a Go `panic`. -/
  | panicked (e : ParseError)
  /-- The scan succeeded with these entries, in file order. -/
  | ok (entries : List NetworkEntry)
deriving DecidableEq, Repr

/-- `parseNetworkForProtocol`: opens the family's table (the file is
modelled as `Option (List String)`, `none` meaning the open fails), skips
the first (header) line unconditionally, and scans the rest. -/
def parseNetworkForProtocol (proto : String) (file : Option (List String)) : ScanResult :=
  match file with
  | none => .ioError (filenameFor proto)
  | some lines =>
    match scanLines proto (filenameFor proto) (lines.drop 1) with
    | .error e => .panicked e
    | .ok entries => .ok entries

/-- The `NetworkINodes` Go map (`map[int]NetworkEntry`), modelled as an
association list with at most one binding per key. -/
abbrev NetworkINodes := List (Int × NetworkEntry)

/-- Removal of every binding for key `k` (at most one ever exists in maps
built here). -/
def removeKey : NetworkINodes → Int → NetworkINodes
  | [], _ => []
  | a :: t, k => if a.1 = k then removeKey t k else a :: removeKey t k

/-- Go map assignment `m[k] = v`: the binding for `k` is replaced. Go maps
are unordered, so any representation with the right lookup and size is
faithful; this one puts the new binding first. -/
def mapInsert (m : NetworkINodes) (k : Int) (v : NetworkEntry) : NetworkINodes :=
  (k, v) :: removeKey m k

/-- Go map lookup `m[k]` (as `value, present`). -/
def mapLookup (m : NetworkINodes) (k : Int) : Option NetworkEntry :=
  (m.find? (fun p => p.1 = k)).map (fun p => p.2)

/-- Go `len(m)`. -/
def mapSize (m : NetworkINodes) : Nat := m.length

/-- The inner loop of `parseNetworkInodes`: `byInode[entry.INode] = entry`
for each scanned entry, in order. -/
def insertEntries (m : NetworkINodes) (l : List NetworkEntry) : NetworkINodes :=
  l.foldl (fun acc e => mapInsert acc e.INode e) m

/-- The fixed `protocols` list. -/
def protocols : List String := ["tcp", "tcp6", "udp", "udp6", "unix", "netlink"]

/-- One family's scan as invoked by `parseNetworkInodes`; the filesystem is
abstracted as a map from family name to optional file content. -/
def scanFor (fs : String → Option (List String)) (proto : String) : ScanResult :=
  parseNetworkForProtocol proto (fs proto)

/-- Result of `parseNetworkInodes`: the first scan's open error (returned
with a nil map), a propagated decoder panic, or the complete index. -/
inductive BuildResult where
  /-- A scan returned an open error; `parseNetworkInodes` returns `nil, err`. -/
  | ioError (filename : String)
  /-- A decoder panic propagated out of a scan. -/
  | panicked (e : ParseError)
  /-- The index was built completely. -/
  | ok (m : NetworkINodes)
deriving DecidableEq, Repr

/-- The loop of `parseNetworkInodes` over the (remaining) protocol list. -/
def buildOver (fs : String → Option (List String)) : List String → NetworkINodes → BuildResult
  | [], acc => .ok acc
  | p :: rest, acc =>
    match scanFor fs p with
    | .ioError fn => .ioError fn
    | .panicked e => .panicked e
    | .ok entries => buildOver fs rest (insertEntries acc entries)

/-- `parseNetworkInodes`: fold every family's scan into one map keyed by
inode, aborting on the first scan error. -/
def parseNetworkInodes (fs : String → Option (List String)) : BuildResult :=
  buildOver fs protocols []

/-- The last entry of the list whose `INode` is `k`, if any: the record that
wins a Go-map fold over the list. -/
def lastEntryWithInode (k : Int) : List NetworkEntry → Option NetworkEntry
  | [] => none
  | e :: t =>
    match lastEntryWithInode k t with
    | some r => some r
    | none => if e.INode = k then some e else none

/-- One entry of `procfs.AllProcs()` as consumed by `searchTarget`: the pid
together with the results of `proc.Comm()` and `proc.CmdLine()`. -/
structure Proc where
  PID : Int
  comm : String
  cmdline : List String
deriving DecidableEq, Repr

/-- Observable outcome of `searchTarget`. -/
inductive SearchOutcome where
  /-- `os.Exit(1)` after printing that there were no matches. -/
  | exitWithError
  /-- `os.Exit(0)` after printing the matches, one per pid in this order. -/
  | listMatches (pids : List Int)
  /-- `host.TargetPID` is set to this pid and monitoring proceeds. -/
  | target (pid : Int)
deriving DecidableEq, Repr

/-- The processes whose `Comm()` is nonempty and contains `targetName`
(`strings.Index(comm, targetName) != -1`), in enumeration order. -/
def matchingProcs (targetName : String) (procs : List Proc) : List Proc :=
  procs.filter (fun p => !(p.comm = "") && goContains p.comm targetName)

/-- `searchTarget` from `main.go`: the number of distinct matching pids (the
size of the `matches` map) selects the outcome; multiple matches are
printed in `sort.Ints` order; with no `-search` flag the preset
`host.TargetPID` is kept, falling back to `os.Getpid()`. -/
def searchTarget (targetName : String) (procs : List Proc) (targetPID selfPID : Int) :
    SearchOutcome :=
  if targetName = "" then
    if targetPID ≤ 0 then .target selfPID else .target targetPID
  else
    let matchPIDs := (matchingProcs targetName procs).map (fun p => p.PID)
    let num := matchPIDs.dedup.length
    if num = 0 then .exitWithError
    else if num > 1 then .listMatches (List.insertionSort (fun a b => a ≤ b) matchPIDs)
    else .target (matchPIDs.dedup.headD 0)

example : goFields "0:  0100007F:13AD 00000000:0000 0A" = ["0:", "0100007F:13AD", "00000000:0000", "0A"] := by decide

example : hexToInt "13AD" = .ok 5037 := by decide

example : hexToIP "0100007F" = .ok [127, 0, 0, 1] := by decide

example :
    parseIP "f" "0: 0100007F:13AD 00000000:0000 0A 00000000:00000000 00:00000000 00000000 1000 0 18083222" "tcp"
      = .ok { Proto := "tcp", SrcIP := [127, 0, 0, 1], SrcPort := 5037,
              DstIP := [0, 0, 0, 0], DstPort := 0, State := 10,
              StateString := "LISTENING", UserId := 1000, INode := 18083222 } := by decide

theorem mapLookup_nil (k : Int) : mapLookup [] k = none := rfl

theorem mapLookup_cons (a : Int × NetworkEntry) (t : NetworkINodes) (k : Int) :
    mapLookup (a :: t) k = if a.1 = k then some a.2 else mapLookup t k := by
  by_cases h : a.1 = k <;> simp [mapLookup, List.find?_cons, h]

theorem mapLookup_removeKey_ne (m : NetworkINodes) (k k' : Int) (h : k' ≠ k) :
    mapLookup (removeKey m k) k' = mapLookup m k' := by
  induction m with
  | nil => rfl
  | cons a t ih =>
    by_cases hk : a.1 = k
    · have hk' : ¬ a.1 = k' := by rw [hk]; intro hh; exact h hh.symm
      rw [removeKey, if_pos hk, ih, mapLookup_cons, if_neg hk']
    · rw [removeKey, if_neg hk, mapLookup_cons, mapLookup_cons, ih]

theorem mapLookup_mapInsert (m : NetworkINodes) (k : Int) (v : NetworkEntry) (k' : Int) :
    mapLookup (mapInsert m k v) k' = if k' = k then some v else mapLookup m k' := by
  by_cases h : k' = k
  · subst h; simp [mapInsert, mapLookup_cons]
  · have hne : ¬ (k = k') := fun hh => h hh.symm
    rw [mapInsert, mapLookup_cons, if_neg hne, if_neg h, mapLookup_removeKey_ne m k k' h]

theorem removeKey_of_mapLookup_none (m : NetworkINodes) (k : Int)
    (h : mapLookup m k = none) : removeKey m k = m := by
  induction m with
  | nil => rfl
  | cons a t ih =>
    rw [mapLookup_cons] at h
    by_cases hk : a.1 = k
    · rw [if_pos hk] at h; cases h
    · rw [if_neg hk] at h
      rw [removeKey, if_neg hk, ih h]

theorem mapSize_mapInsert_of_none (m : NetworkINodes) (k : Int) (v : NetworkEntry)
    (h : mapLookup m k = none) : mapSize (mapInsert m k v) = mapSize m + 1 := by
  simp [mapInsert, mapSize, removeKey_of_mapLookup_none m k h]

theorem insertEntries_nil (m : NetworkINodes) : insertEntries m [] = m := rfl

theorem insertEntries_cons (m : NetworkINodes) (e : NetworkEntry) (t : List NetworkEntry) :
    insertEntries m (e :: t) = insertEntries (mapInsert m e.INode e) t := rfl

theorem mapLookup_insertEntries (l : List NetworkEntry) (m : NetworkINodes) (k : Int) :
    mapLookup (insertEntries m l) k =
      match lastEntryWithInode k l with
      | some r => some r
      | none => mapLookup m k := by
  induction l generalizing m with
  | nil => rfl
  | cons e t ih =>
    rw [insertEntries_cons, ih]
    cases hlast : lastEntryWithInode k t with
    | some r => simp [lastEntryWithInode, hlast]
    | none =>
      by_cases he : e.INode = k
      · simp [lastEntryWithInode, hlast, he, mapLookup_mapInsert]
      · have : ¬ k = e.INode := fun hh => he hh.symm
        simp [lastEntryWithInode, hlast, he, mapLookup_mapInsert, this]

theorem lastEntryWithInode_eq_none (k : Int) (l : List NetworkEntry) :
    lastEntryWithInode k l = none ↔ ∀ e ∈ l, e.INode ≠ k := by
  induction l with
  | nil => simp [lastEntryWithInode]
  | cons e t ih =>
    constructor
    · intro h x hx
      unfold lastEntryWithInode at h
      cases hlast : lastEntryWithInode k t with
      | some r => rw [hlast] at h; cases h
      | none =>
        rw [hlast] at h
        rcases List.mem_cons.1 hx with hx | hx
        · intro hc; subst hx; simp [hc] at h
        · exact (ih.1 hlast) x hx
    · intro h
      unfold lastEntryWithInode
      rw [ih.2 (fun x hx => h x (by simp [hx]))]
      simp [h e (by simp)]

theorem mapLookup_insertEntries_none (l : List NetworkEntry) (m : NetworkINodes) (k : Int)
    (hl : ∀ e ∈ l, e.INode ≠ k) (hm : mapLookup m k = none) :
    mapLookup (insertEntries m l) k = none := by
  rw [mapLookup_insertEntries, (lastEntryWithInode_eq_none k l).2 hl, hm]

theorem mapSize_insertEntries (l : List NetworkEntry) (m : NetworkINodes)
    (hfresh : ∀ e ∈ l, mapLookup m e.INode = none)
    (hnodup : (l.map (fun e => e.INode)).Nodup) :
    mapSize (insertEntries m l) = mapSize m + l.length := by
  induction l generalizing m with
  | nil => simp [insertEntries_nil]
  | cons e t ih =>
    rw [insertEntries_cons]
    rw [List.map_cons, List.nodup_cons] at hnodup
    have hstep : mapSize (insertEntries (mapInsert m e.INode e) t) =
        mapSize (mapInsert m e.INode e) + t.length := by
      apply ih
      · intro x hx
        rw [mapLookup_mapInsert]
        have hne : ¬ x.INode = e.INode := by
          intro hc
          exact hnodup.1 (by rw [← hc]; exact List.mem_map_of_mem _ hx)
        simp [hne, hfresh x (by simp [hx])]
      · exact hnodup.2
    rw [hstep, mapSize_mapInsert_of_none m e.INode e (hfresh e (by simp))]
    simp [List.length_cons]
    omega

theorem hexToInt_error (s : String) (e : ParseError) (h : hexToInt s = .error e) :
    ∃ p, e = .panic p := by
  unfold hexToInt at h
  by_cases he : s.data.isEmpty
  · rw [if_pos he] at h; cases h; exact ⟨_, rfl⟩
  · rw [if_neg he] at h
    cases hn : hexNatAux s.data 0 with
    | some n => rw [hn] at h; cases h
    | none => rw [hn] at h; cases h; exact ⟨_, rfl⟩

theorem hexToIP_error (s : String) (e : ParseError) (h : hexToIP s = .error e) :
    ∃ p, e = .panic p := by
  unfold hexToIP at h
  cases hb : hexBytes s.data with
  | some bs => rw [hb] at h; cases h
  | none => rw [hb] at h; cases h; exact ⟨_, rfl⟩

theorem decToInt_error (s : String) (e : ParseError) (h : decToInt s = .error e) :
    ∃ p, e = .panic p := by
  unfold decToInt at h
  rcases hd : s.data with _ | ⟨c, rest⟩ <;> rw [hd] at h <;> dsimp only at h
  · cases h; exact ⟨_, rfl⟩
  · by_cases hc : c = '-'
    · rw [if_pos hc] at h
      by_cases hr : rest.isEmpty
      · rw [if_pos hr] at h; cases h; exact ⟨_, rfl⟩
      · rw [if_neg hr] at h
        cases hn : decNatAux rest 0 with
        | some n => rw [hn] at h; cases h
        | none => rw [hn] at h; cases h; exact ⟨_, rfl⟩
    · rw [if_neg hc] at h
      cases hn : decNatAux (c :: rest) 0 with
      | some n => rw [hn] at h; cases h
      | none => rw [hn] at h; cases h; exact ⟨_, rfl⟩

theorem listIdx_error (l : List String) (i : Nat) (e : ParseError)
    (h : listIdx l i = .error e) : ∃ p, e = .panic p := by
  unfold listIdx at h
  cases hg : l[i]? with
  | some s => rw [hg] at h; cases h
  | none => rw [hg] at h; cases h; exact ⟨_, rfl⟩

theorem listIdx_oob (l : List String) (i : Nat) (h : l.length ≤ i) :
    listIdx l i = .error (.panic (.indexOutOfRange i l.length)) := by
  unfold listIdx
  rw [List.getElem?_eq_none h]

/-- The result of a decoder or of one monadic step of one: exactly the Go
panics, excluding both success and a returned `MalformedLine` error. -/
def isPanicResult : Except ParseError NetworkEntry → Bool
  | .error (.panic _) => true
  | _ => false

theorem splitColonAux_length_one (cs : List Char) (acc : List Char)
    (h : containsAux cs [':'] = false) : (splitColonAux cs acc).length = 1 := by
  induction cs generalizing acc with
  | nil => rfl
  | cons c t ih =>
    unfold containsAux at h
    rw [Bool.or_eq_false_iff] at h
    have hc : ¬ c = ':' := by
      intro hc
      subst hc
      simp [List.isPrefixOf] at h
    unfold splitColonAux
    rw [if_neg hc]
    exact ih _ h.2

theorem goSplitColon_length_one (s : String) (h : goContains s ":" = false) :
    (goSplitColon s).length = 1 := by
  unfold goSplitColon
  exact splitColonAux_length_one s.data [] h

theorem insertEntries_append (m : NetworkINodes) (l l' : List NetworkEntry) :
    insertEntries m (l ++ l') = insertEntries (insertEntries m l) l' := by
  unfold insertEntries
  exact List.foldl_append _ _ _ _

theorem mapLookup_insertEntries_nil (l : List NetworkEntry) (k : Int) :
    mapLookup (insertEntries [] l) k = lastEntryWithInode k l := by
  rw [mapLookup_insertEntries]
  cases lastEntryWithInode k l <;> rfl

/-- The minimum field count each family's decoder enforces. -/
def minFieldsFor (proto : String) : Nat := if proto = "unix" then 7 else 10

/-- The field count each family's decoder prints in its MalformedLine
message for a short line: `parseUnix` and `parseNetlink` print the literal
`7`, `parseIP` prints the observed count. -/
def reportedFieldsFor (proto line : String) : Nat :=
  if proto = "unix" then 7 else if proto = "netlink" then 7 else (goFields line).length

theorem decodeLine_short (proto fn line : String)
    (h : (goFields line).length < minFieldsFor proto) :
    decodeLine proto fn line =
      .error (.malformedLine fn (reportedFieldsFor proto line) line) := by
  unfold decodeLine minFieldsFor reportedFieldsFor at *
  by_cases hu : proto = "unix"
  · rw [if_pos hu] at h ⊢
    rw [if_pos hu]
    simp only [parseUnix]
    rw [if_pos h]
  · rw [if_neg hu] at h ⊢
    rw [if_neg hu]
    by_cases hn : proto = "netlink"
    · rw [if_pos hn]
      simp only [parseNetlink]
      rw [if_pos h, if_pos hn]
    · rw [if_neg hn]
      simp only [parseIP]
      rw [if_pos h, if_neg hn]

theorem scanLines_ok_decodes (proto fn : String) (ls : List String)
    (es : List NetworkEntry) (h : scanLines proto fn ls = .ok es) :
    ∀ l ∈ ls, ∃ e, decodeLine proto fn (goTrim l) = .ok e := by
  induction ls generalizing es with
  | nil => intro l hl; cases hl
  | cons l0 rest ih =>
    intro l hl
    unfold scanLines at h
    cases hd : decodeLine proto fn (goTrim l0) with
    | error e => rw [hd] at h; cases h
    | ok e =>
      rw [hd] at h
      cases hr : scanLines proto fn rest with
      | error e' => rw [hr] at h; cases h
      | ok es' =>
        rw [hr] at h
        rcases List.mem_cons.1 hl with hl | hl
        · subst hl; exact ⟨e, hd⟩
        · exact ih es' hr l hl

theorem scanLines_first_error (proto fn : String) (pre : List String) (bad : String)
    (post : List String) (err : ParseError)
    (hpre : ∀ l ∈ pre, ∃ e, decodeLine proto fn (goTrim l) = .ok e)
    (hbad : decodeLine proto fn (goTrim bad) = .error err) :
    scanLines proto fn (pre ++ bad :: post) = .error err := by
  induction pre with
  | nil =>
    rw [List.nil_append]
    unfold scanLines
    rw [hbad]
  | cons l0 t ih =>
    obtain ⟨e, he⟩ := hpre l0 (by simp)
    rw [List.cons_append]
    unfold scanLines
    rw [he, ih (fun l hl => hpre l (by simp [hl]))]

theorem scanFor_none (fs : String → Option (List String)) (p : String) (h : fs p = none) :
    scanFor fs p = .ioError (filenameFor p) := by
  simp [scanFor, parseNetworkForProtocol, h]

theorem buildOver_ok_scans (fs : String → Option (List String)) (ps : List String)
    (acc : NetworkINodes) (m : NetworkINodes) (h : buildOver fs ps acc = .ok m) :
    ∀ p ∈ ps, ∃ l, scanFor fs p = .ok l := by
  induction ps generalizing acc with
  | nil => intro p hp; cases hp
  | cons q rest ih =>
    intro p hp
    unfold buildOver at h
    cases hq : scanFor fs q with
    | ioError fn => rw [hq] at h; cases h
    | panicked e => rw [hq] at h; cases h
    | ok l =>
      rw [hq] at h
      rcases List.mem_cons.1 hp with hp | hp
      · subst hp; exact ⟨l, hq⟩
      · exact ih _ h p hp

theorem buildOver_error_at (fs : String → Option (List String)) (ps : List String)
    (acc : NetworkINodes) (i : Nat) (hi : i < ps.length)
    (hnone : fs (ps.getD i "") = none)
    (hok : ∀ j, j < i → ∃ l, scanFor fs (ps.getD j "") = .ok l) :
    buildOver fs ps acc = .ioError (filenameFor (ps.getD i "")) := by
  induction ps generalizing acc i with
  | nil => simp at hi
  | cons q rest ih =>
    cases i with
    | zero =>
      simp only [List.getD_cons_zero] at hnone ⊢
      unfold buildOver
      rw [scanFor_none fs q hnone]
    | succ i =>
      obtain ⟨l, hl⟩ := hok 0 (Nat.succ_pos i)
      simp only [List.getD_cons_zero] at hl
      unfold buildOver
      rw [hl]
      simp only [List.getD_cons_succ] at hnone ⊢
      exact ih _ i (by simpa using hi) hnone
        (fun j hj => by simpa using hok (j + 1) (by omega))

def c1_badLine : String := "0100007F:13AD 00000000:0000 0A 00 00 00 00 1000 0 18083222"

/-- C1 counterexample: an input line literally beginning
`0100007F:13AD 00000000:0000 0A ...` with exactly 10 whitespace-separated
fields does not decode at all: `parseIP` reads the local address from the
second field and the remote address from the third (the kernel table's
first column is a slot number), so here the remote field is `0A`, its
colon-split has one element, and indexing `remote[1]` panics with an
index-out-of-range instead of producing the claimed record. -/
theorem c1_counterexample :
    (goFields c1_badLine).take 3 = ["0100007F:13AD", "00000000:0000", "0A"] ∧
    (goFields c1_badLine).length = 10 ∧
    parseIP "/proc/net/tcp" c1_badLine "tcp" = .error (.panic (.indexOutOfRange 1 1)) := by
  decide

/-- C1 (amended): any stream-v4 line with at least 10 whitespace-separated
fields whose second, third and fourth fields are `0100007F:13AD`,
`00000000:0000` and `0A` (the table's first column is the slot number) and
whose eighth and tenth fields are valid decimals decodes to source address
127.0.0.1, source port 5037, destination address 0.0.0.0, destination port
0, and numeric state 0x0A with its label from the fixed state table
(`"LISTENING"`). -/
theorem parseIP_listen_scenario (fn proto line : String) (u n : Int)
    (h10 : 10 ≤ (goFields line).length)
    (h1 : (goFields line).getD 1 "" = "0100007F:13AD")
    (h2 : (goFields line).getD 2 "" = "00000000:0000")
    (h3 : (goFields line).getD 3 "" = "0A")
    (h7 : decToInt ((goFields line).getD 7 "") = .ok u)
    (h9 : decToInt ((goFields line).getD 9 "") = .ok n) :
    parseIP fn line proto =
      .ok { Proto := proto, SrcIP := [127, 0, 0, 1], SrcPort := 5037,
            DstIP := [0, 0, 0, 0], DstPort := 0, State := 10,
            StateString := "LISTENING", UserId := u, INode := n } := by
  simp only [parseIP]
  rw [if_neg (by omega), h1, h2, h3, h7, h9]
  rfl

/-- Witness for C1's amended theorem at the concrete kernel table line from
the source comment. -/
theorem parseIP_listen_scenario_witness :
    parseIP "/proc/net/tcp"
      "0: 0100007F:13AD 00000000:0000 0A 00000000:00000000 00:00000000 00000000 1000 0 18083222"
      "tcp"
      = .ok { Proto := "tcp", SrcIP := [127, 0, 0, 1], SrcPort := 5037,
              DstIP := [0, 0, 0, 0], DstPort := 0, State := 10,
              StateString := "LISTENING", UserId := 1000, INode := 18083222 } :=
  parseIP_listen_scenario "/proc/net/tcp"
    "tcp"
    "0: 0100007F:13AD 00000000:0000 0A 00000000:00000000 00:00000000 00000000 1000 0 18083222"
    1000 18083222 (by decide) (by decide) (by decide) (by decide) (by decide) (by decide)

/-- C2: the index build processes the six families in the fixed order
tcp, tcp6, udp, udp6, unix, netlink; all scanned records are folded into
one mapping keyed by inode, and the map holds, for every inode, the last
record with that inode in family-list (then file) order — so on an inode
collision the record from the later-processed family silently replaces the
earlier one. -/
theorem parseNetworkInodes_order_and_overwrite (fs : String → Option (List String))
    (l1 l2 l3 l4 l5 l6 : List NetworkEntry)
    (h1 : scanFor fs "tcp" = .ok l1) (h2 : scanFor fs "tcp6" = .ok l2)
    (h3 : scanFor fs "udp" = .ok l3) (h4 : scanFor fs "udp6" = .ok l4)
    (h5 : scanFor fs "unix" = .ok l5) (h6 : scanFor fs "netlink" = .ok l6) :
    protocols = ["tcp", "tcp6", "udp", "udp6", "unix", "netlink"] ∧
    parseNetworkInodes fs = .ok (insertEntries [] (l1 ++ l2 ++ l3 ++ l4 ++ l5 ++ l6)) ∧
    ∀ k, mapLookup (insertEntries [] (l1 ++ l2 ++ l3 ++ l4 ++ l5 ++ l6)) k =
      lastEntryWithInode k (l1 ++ l2 ++ l3 ++ l4 ++ l5 ++ l6) := by
  refine ⟨rfl, ?_, fun k => mapLookup_insertEntries_nil _ k⟩
  show buildOver fs protocols [] = _
  simp only [protocols, buildOver, h1, h2, h3, h4, h5, h6]
  rw [insertEntries_append, insertEntries_append, insertEntries_append,
    insertEntries_append, insertEntries_append]

def fsC2 : String → Option (List String) := fun p =>
  if p = "tcp" then some ["hdr", "0: 0100007F:13AD 00000000:0000 0A 00:00 00:00 0 1000 0 5"]
  else if p = "udp" then some ["hdr", "1: 0100007F:0050 00000000:0000 07 00:00 00:00 0 1000 0 5"]
  else some ["hdr"]

def eC2tcp : NetworkEntry :=
  { Proto := "tcp", SrcIP := [127, 0, 0, 1], SrcPort := 5037, DstIP := [0, 0, 0, 0],
    DstPort := 0, State := 10, StateString := "LISTENING", UserId := 1000, INode := 5 }

def eC2udp : NetworkEntry :=
  { Proto := "udp", SrcIP := [127, 0, 0, 1], SrcPort := 80, DstIP := [0, 0, 0, 0],
    DstPort := 0, State := 7, StateString := "CLOSE", UserId := 1000, INode := 5 }

/-- Witness for C2: a tcp record and a udp record share inode 5; the built
index maps inode 5 to the udp record, the later-processed family. -/
theorem parseNetworkInodes_order_and_overwrite_witness :
    parseNetworkInodes fsC2 = .ok (insertEntries [] ([eC2tcp] ++ [] ++ [eC2udp] ++ [] ++ [] ++ [])) ∧
    mapLookup (insertEntries [] ([eC2tcp] ++ [] ++ [eC2udp] ++ [] ++ [] ++ [])) 5 = some eC2udp := by
  have h := parseNetworkInodes_order_and_overwrite fsC2 [eC2tcp] [] [eC2udp] [] [] []
    (by decide) (by decide) (by decide) (by decide) (by decide) (by decide)
  exact ⟨h.2.1, (h.2.2 5).trans (by decide)⟩

/-- C3: the index build aborts at the first per-family scan error and
returns that error with no partial index: if any family's table file fails
to open, `parseNetworkInodes` never returns a map, and when every earlier
family scanned successfully it returns exactly the failing family's open
error. -/
theorem parseNetworkInodes_first_scan_error :
    (∀ (fs : String → Option (List String)) p, p ∈ protocols → fs p = none →
      ∀ m, parseNetworkInodes fs ≠ .ok m) ∧
    (∀ (fs : String → Option (List String)) i, i < protocols.length →
      fs (protocols.getD i "") = none →
      (∀ j, j < i → ∃ l, scanFor fs (protocols.getD j "") = .ok l) →
      parseNetworkInodes fs = .ioError (filenameFor (protocols.getD i ""))) := by
  constructor
  · intro fs p hp hnone m hok
    obtain ⟨l, hl⟩ := buildOver_ok_scans fs protocols [] m hok p hp
    rw [scanFor_none fs p hnone] at hl
    cases hl
  · intro fs i hi hnone hok
    exact buildOver_error_at fs protocols [] i hi hnone hok

/-- Witness for C3: with every table file missing, the build returns the
first family's open error (tcp) and no index. -/
theorem parseNetworkInodes_first_scan_error_witness :
    parseNetworkInodes (fun _ => none) = .ioError "/proc/net/tcp" := by
  have h := parseNetworkInodes_first_scan_error.2 (fun _ => none) 0 (by decide) rfl
    (fun j hj => absurd hj (Nat.not_lt_zero j))
  exact h.trans (by decide)

/-- C4 (amended): for every kernel table file containing a data line with
fewer whitespace-separated columns than its family's minimum (unix: 7,
others incl. netlink and the IP families: 10), the scan produces zero
records (it can never return an entry list); and when every data line
before the short line decodes successfully, the scan aborts with a
MalformedLine error identifying the source file and the (trimmed) line
content. Short lines are never accepted with defaults. -/
theorem scanner_short_line_aborts (proto hdr : String) (pre post : List String) (bad : String)
    (hshort : (goFields (goTrim bad)).length < minFieldsFor proto) :
    (∀ es, parseNetworkForProtocol proto (some (hdr :: (pre ++ bad :: post))) ≠ .ok es) ∧
    ((∀ l ∈ pre, ∃ e, decodeLine proto (filenameFor proto) (goTrim l) = .ok e) →
      parseNetworkForProtocol proto (some (hdr :: (pre ++ bad :: post))) =
        .panicked (.malformedLine (filenameFor proto) (reportedFieldsFor proto (goTrim bad))
          (goTrim bad))) := by
  constructor
  · intro es h
    simp only [parseNetworkForProtocol, List.drop_succ_cons, List.drop_zero] at h
    cases hscan : scanLines proto (filenameFor proto) (pre ++ bad :: post) with
    | error e => rw [hscan] at h; cases h
    | ok entries =>
      obtain ⟨e, he⟩ := scanLines_ok_decodes proto (filenameFor proto) _ entries hscan bad
        (by simp)
      rw [decodeLine_short proto (filenameFor proto) (goTrim bad) hshort] at he
      cases he
  · intro hpre
    have hbad := decodeLine_short proto (filenameFor proto) (goTrim bad) hshort
    have hscan := scanLines_first_error proto (filenameFor proto) pre bad post _ hpre hbad
    simp only [parseNetworkForProtocol, List.drop_succ_cons, List.drop_zero]
    rw [hscan]

def c4_file : List String :=
  ["sl local_address rem_address",
   "0: 0100007F 00000000:0000 0A x 00 00 1000 0 18083222",
   "a b"]

/-- C4 counterexample: this tcp table file contains the data line `a b`
with 2 < 10 columns, yet scanning it does not report a MalformedLine
error: the earlier 10-field data line whose second field has no colon
panics first with an index-out-of-range, so the reported failure
identifies neither the short line nor a MalformedLine condition (the
zero-records half of the claim still holds). -/
theorem c4_counterexample :
    (goFields (goTrim "a b")).length < minFieldsFor "tcp" ∧
    parseNetworkForProtocol "tcp" (some c4_file) =
      .panicked (.panic (.indexOutOfRange 1 1)) := by decide

def c4_goodLine : String := "0: 0100007F:13AD 00000000:0000 0A 00:00 00:00 0 1000 0 7"

def eC4good : NetworkEntry :=
  { Proto := "tcp", SrcIP := [127, 0, 0, 1], SrcPort := 5037, DstIP := [0, 0, 0, 0],
    DstPort := 0, State := 10, StateString := "LISTENING", UserId := 1000, INode := 7 }

/-- Witness for C4's amended theorem: a tcp file with one good data line
followed by the short line `a b` aborts with the MalformedLine error
naming the file and the short line, and zero records. -/
theorem scanner_short_line_aborts_witness :
    parseNetworkForProtocol "tcp" (some ["hdr", c4_goodLine, "a b"]) =
      .panicked (.malformedLine "/proc/net/tcp" 2 "a b") := by
  have h := (scanner_short_line_aborts "tcp" "hdr" [c4_goodLine] [] "a b" (by decide)).2
    (fun l hl => by
      have hleq := List.mem_singleton.1 hl
      subst hleq
      exact ⟨eC4good, by decide⟩)
  exact h.trans (by decide)

/-- C5 counterexample: the fixed socket-state table is a 12-value
enumeration, not an 11-value one: codes 1 through 12 all carry nonempty
labels (code 12 is `NEW_SYN_RECV`), so the code 12 lies inside the
enumeration although an 11-value table mirroring states 1..11 would map
it to the empty label. -/
theorem c5_counterexample :
    sockStates 12 = "NEW_SYN_RECV" ∧
    ((List.range 13).filter (fun s => sockStates s != "")).length = 12 := by decide

/-- C5 (amended): the socket-state labeling used by the stream/unix
decoders is a fixed 12-value enumeration (codes 1..12, mirroring the
kernel TCP states incl. `TCP_NEW_SYN_RECV`), and any state code outside
that enumeration maps to the empty label while the decode still succeeds
rather than failing. -/
theorem sockStates_enumeration :
    (∀ s : Nat, sockStates s ≠ "" ↔ (1 ≤ s ∧ s ≤ 12)) ∧
    (∀ (fn proto line : String) (s : Nat) (u n : Int),
      10 ≤ (goFields line).length →
      (goFields line).getD 1 "" = "00000000:0000" →
      (goFields line).getD 2 "" = "00000000:0000" →
      hexToInt ((goFields line).getD 3 "") = .ok s →
      decToInt ((goFields line).getD 7 "") = .ok u →
      decToInt ((goFields line).getD 9 "") = .ok n →
      parseIP fn line proto =
        .ok { Proto := proto, SrcIP := [0, 0, 0, 0], SrcPort := 0,
              DstIP := [0, 0, 0, 0], DstPort := 0, State := s,
              StateString := sockStates s, UserId := u, INode := n }) := by
  constructor
  · intro s
    by_cases hlt : s < 13
    · interval_cases s <;> decide
    · have h13 : 13 ≤ s := by omega
      have hempty : sockStates s = "" := by
        unfold sockStates TCP_ESTABLISHED TCP_SYN_SENT TCP_SYN_RECV TCP_FIN_WAIT1
          TCP_FIN_WAIT2 TCP_TIME_WAIT TCP_CLOSE TCP_CLOSE_WAIT TCP_LAST_ACK TCP_LISTEN
          TCP_CLOSING TCP_NEW_SYN_RECV
        repeat rw [if_neg (by omega)]
      rw [hempty]
      simp
      omega
  · intro fn proto line s u n h10 h1 h2 h3 h7 h9
    simp only [parseIP]
    rw [if_neg (by omega), h1, h2, h3, h7, h9]
    rfl

/-- Witness for C5's amended theorem: state code 0x0D = 13 lies outside
the enumeration; the line decodes successfully with an empty state
label. -/
theorem sockStates_enumeration_witness :
    parseIP "f" "0: 00000000:0000 00000000:0000 0D 00 00 00 1000 0 42" "tcp" =
      .ok { Proto := "tcp", SrcIP := [0, 0, 0, 0], SrcPort := 0,
            DstIP := [0, 0, 0, 0], DstPort := 0, State := 13,
            StateString := "", UserId := 1000, INode := 42 } ∧
    ¬ (1 ≤ 13 ∧ 13 ≤ 12) := by
  have h := sockStates_enumeration.2 "f" "tcp"
    "0: 00000000:0000 00000000:0000 0D 00 00 00 1000 0 42" 13 1000 42
    (by decide) (by decide) (by decide) (by decide) (by decide) (by decide)
  exact ⟨h.trans (by decide), by decide⟩

def fsC6 : String → Option (List String) := fun p =>
  if p = "tcp" then
    some ["hdr",
      "0: 0100007F:13AD 00000000:0000 0A 00:00 00:00 0 1000 0 99",
      "1: 0100007F:0050 00000000:0000 0A 00:00 00:00 0 1000 0 99"]
  else some ["hdr"]

def eC6a : NetworkEntry :=
  { Proto := "tcp", SrcIP := [127, 0, 0, 1], SrcPort := 5037, DstIP := [0, 0, 0, 0],
    DstPort := 0, State := 10, StateString := "LISTENING", UserId := 1000, INode := 99 }

def eC6b : NetworkEntry :=
  { Proto := "tcp", SrcIP := [127, 0, 0, 1], SrcPort := 80, DstIP := [0, 0, 0, 0],
    DstPort := 0, State := 10, StateString := "LISTENING", UserId := 1000, INode := 99 }

/-- C6 counterexample: the tcp family scans to two records (which share
inode 99 with each other, as can happen transiently), every other family
scans to zero records, so no inode value is common to two different
families' record lists; yet the built index has size 1, not 2 + 0: the
claim's size identity fails without per-family inode uniqueness. -/
theorem c6_counterexample :
    scanFor fsC6 "tcp" = .ok [eC6a, eC6b] ∧
    scanFor fsC6 "tcp6" = .ok [] ∧ scanFor fsC6 "udp" = .ok [] ∧
    scanFor fsC6 "udp6" = .ok [] ∧ scanFor fsC6 "unix" = .ok [] ∧
    scanFor fsC6 "netlink" = .ok [] ∧
    parseNetworkInodes fsC6 = .ok [(99, eC6b)] ∧
    mapSize [(99, eC6b)] = 1 ∧ (1 : Nat) ≠ 2 + 0 := by decide

/-- C6 (amended): for every two protocol families whose scanned record
lists have pairwise-distinct inodes within each list and share no common
inode value across the two lists, folding both lists into the
inode-keyed index yields a mapping whose size equals the sum of the two
record counts. -/
theorem index_size_disjoint_families (l1 l2 : List NetworkEntry)
    (h1 : (l1.map (fun e => e.INode)).Nodup)
    (h2 : (l2.map (fun e => e.INode)).Nodup)
    (hdisj : ∀ e1 ∈ l1, ∀ e2 ∈ l2, e1.INode ≠ e2.INode) :
    mapSize (insertEntries (insertEntries [] l1) l2) = l1.length + l2.length := by
  have hs1 : mapSize (insertEntries ([] : NetworkINodes) l1) = l1.length := by
    have h := mapSize_insertEntries l1 [] (fun e _ => rfl) h1
    simpa [mapSize] using h
  have hfresh : ∀ e ∈ l2, mapLookup (insertEntries [] l1) e.INode = none := by
    intro e he
    apply mapLookup_insertEntries_none
    · intro x hx
      exact hdisj x hx e he
    · rfl
  rw [mapSize_insertEntries l2 (insertEntries [] l1) hfresh h2, hs1]

def eW1 : NetworkEntry := { INode := 1 }
def eW2 : NetworkEntry := { INode := 2 }
def eW3 : NetworkEntry := { INode := 3 }

/-- Witness for C6's amended theorem: two disjoint families of sizes 2 and
1 build an index of size 3. -/
theorem index_size_disjoint_families_witness :
    mapSize (insertEntries (insertEntries [] [eW1, eW2]) [eW3]) = 2 + 1 :=
  index_size_disjoint_families [eW1, eW2] [eW3] (by decide) (by decide) (by decide)

/-- C7: for every unix-domain line meeting the 7-field minimum whose
subtype, state and inode columns convert, the decoded `Path` is empty when
exactly 7 fields are present and is exactly the 8th whitespace-separated
field when more are present (so a path containing spaces keeps only its
first whitespace-delimited chunk); the subtype and state labels come from
the fixed `sockTypes` / `sockStates` tables. -/
theorem parseUnix_path_column (fn proto line : String) (t s : Nat) (n : Int)
    (h4 : hexToInt ((goFields line).getD 4 "") = .ok t)
    (h5 : hexToInt ((goFields line).getD 5 "") = .ok s)
    (h6 : decToInt ((goFields line).getD 6 "") = .ok n) :
    ((goFields line).length = 7 →
      parseUnix fn line proto =
        .ok { Proto := proto, Typ := t, TypeString := sockTypes t, State := s,
              StateString := sockStates s, INode := n, Path := "" }) ∧
    (7 < (goFields line).length →
      parseUnix fn line proto =
        .ok { Proto := proto, Typ := t, TypeString := sockTypes t, State := s,
              StateString := sockStates s, INode := n,
              Path := (goFields line).getD 7 "" }) := by
  constructor
  · intro hlen
    simp only [parseUnix]
    rw [if_neg (by omega), h4, h5, h6, if_neg (by omega)]
    rfl
  · intro hlen
    simp only [parseUnix]
    rw [if_neg (by omega), h4, h5, h6, if_pos (by omega)]
    rfl

/-- Witness for C7: the concrete no-path line of the source comment with
subtype hex 0001 and state hex 01 decodes to the `SOCK_STREAM` label, the
fixed-table state label, and an empty path; the same line with the
space-containing path `/tmp/a b.sock` appended keeps only `/tmp/a`. -/
theorem parseUnix_path_column_witness :
    parseUnix "/proc/net/unix" "0000000000000000: 00000002 00000000 00010000 0001 01 28271"
      "unix" =
      .ok { Proto := "unix", Typ := 1, TypeString := "SOCK_STREAM", State := 1,
            StateString := "ESTABLISHED", INode := 28271, Path := "" } ∧
    parseUnix "/proc/net/unix"
      "0000000000000000: 00000002 00000000 00010000 0001 01 28271 /tmp/a b.sock" "unix" =
      .ok { Proto := "unix", Typ := 1, TypeString := "SOCK_STREAM", State := 1,
            StateString := "ESTABLISHED", INode := 28271, Path := "/tmp/a" } := by
  constructor
  · have h := (parseUnix_path_column "/proc/net/unix" "unix"
      "0000000000000000: 00000002 00000000 00010000 0001 01 28271" 1 1 28271
      (by decide) (by decide) (by decide)).1 (by decide)
    exact h.trans (by decide)
  · have h := (parseUnix_path_column "/proc/net/unix" "unix"
      "0000000000000000: 00000002 00000000 00010000 0001 01 28271 /tmp/a b.sock" 1 1 28271
      (by decide) (by decide) (by decide)).2 (by decide)
    exact h.trans (by decide)

theorem ok_bind {α : Type} (a : α) (f : α → Except ParseError NetworkEntry) :
    ((Except.ok a : Except ParseError α) >>= f) = f a := rfl

theorem error_bind_isPanic {α : Type} (p : GoPanic) (f : α → Except ParseError NetworkEntry) :
    isPanicResult ((Except.error (.panic p) : Except ParseError α) >>= f) = true := rfl

/-- C8: process search by name substring: zero distinct matching pids exits
with an error; more than one match lists the matches sorted by ascending
pid and stops without choosing; exactly one match selects that pid as the
monitoring target. -/
theorem searchTarget_resolution (name : String) (procs : List Proc) (cur self : Int)
    (hname : name ≠ "") :
    (((matchingProcs name procs).map (fun p => p.PID)).dedup.length = 0 →
      searchTarget name procs cur self = .exitWithError) ∧
    (1 < ((matchingProcs name procs).map (fun p => p.PID)).dedup.length →
      searchTarget name procs cur self =
        .listMatches (List.insertionSort (fun a b => a ≤ b)
          ((matchingProcs name procs).map (fun p => p.PID))) ∧
      List.Sorted (fun a b => a ≤ b)
        (List.insertionSort (fun a b => a ≤ b)
          ((matchingProcs name procs).map (fun p => p.PID))) ∧
      List.Perm
        (List.insertionSort (fun a b => a ≤ b) ((matchingProcs name procs).map (fun p => p.PID)))
        ((matchingProcs name procs).map (fun p => p.PID))) ∧
    (∀ pid, ((matchingProcs name procs).map (fun p => p.PID)).dedup = [pid] →
      searchTarget name procs cur self = .target pid) := by
  simp only [searchTarget, if_neg hname]
  refine ⟨?_, ?_, ?_⟩
  · intro h0
    rw [if_pos h0]
  · intro h1
    rw [if_neg (by omega), if_pos h1]
    exact ⟨rfl, List.sorted_insertionSort _ _, List.perm_insertionSort _ _⟩
  · intro pid hpid
    have hlen : ((matchingProcs name procs).map (fun p => p.PID)).dedup.length = 1 := by
      rw [hpid]; rfl
    rw [if_neg (by omega), if_neg (by omega), hpid]
    rfl

/-- Witness for C8: two of three processes match `abc` (pids 3 and 1); the
search stops and lists them in ascending pid order. -/
theorem searchTarget_resolution_witness :
    searchTarget "abc" [⟨3, "abc", []⟩, ⟨1, "xabcy", []⟩, ⟨2, "zzz", []⟩] 0 42 =
      .listMatches [1, 3] := by
  have h := (searchTarget_resolution "abc" [⟨3, "abc", []⟩, ⟨1, "xabcy", []⟩, ⟨2, "zzz", []⟩]
    0 42 (by decide)).2.1 (by decide)
  exact h.1.trans (by decide)

/-- C9: any IP-family line with at least 10 fields whose second or third
field has no colon is never answered with a MalformedLine error: the
decoder splits those fields on `:` and indexes element 1 unconditionally,
so the decode aborts with a Go runtime panic (`isPanicResult` excludes
both success and the MalformedLine error value); the witness shows the
concrete index-out-of-range panic. -/
theorem parseIP_missing_colon_panics (fn proto line : String)
    (h10 : 10 ≤ (goFields line).length)
    (hcolon : goContains ((goFields line).getD 1 "") ":" = false ∨
      goContains ((goFields line).getD 2 "") ":" = false) :
    isPanicResult (parseIP fn line proto) = true := by
  simp only [parseIP]
  rw [if_neg (by omega)]
  cases h3 : hexToInt ((goFields line).getD 3 "") with
  | error e =>
    obtain ⟨p, hp⟩ := hexToInt_error _ _ h3
    subst hp
    exact error_bind_isPanic p _
  | ok s =>
    rw [ok_bind]
    cases hA0 : listIdx (goSplitColon ((goFields line).getD 1 "")) 0 with
    | error e =>
      obtain ⟨p, hp⟩ := listIdx_error _ _ _ hA0
      subst hp
      exact error_bind_isPanic p _
    | ok a0 =>
      rw [ok_bind]
      cases hIP0 : hexToIP a0 with
      | error e =>
        obtain ⟨p, hp⟩ := hexToIP_error _ _ hIP0
        subst hp
        exact error_bind_isPanic p _
      | ok ip0 =>
        rw [ok_bind]
        rcases hcolon with hc1 | hc2
        · have hlen1 := goSplitColon_length_one _ hc1
          rw [listIdx_oob _ 1 (by omega)]
          exact error_bind_isPanic _ _
        · cases hA1 : listIdx (goSplitColon ((goFields line).getD 1 "")) 1 with
          | error e =>
            obtain ⟨p, hp⟩ := listIdx_error _ _ _ hA1
            subst hp
            exact error_bind_isPanic p _
          | ok a1 =>
            rw [ok_bind]
            cases hP1 : hexToInt a1 with
            | error e =>
              obtain ⟨p, hp⟩ := hexToInt_error _ _ hP1
              subst hp
              exact error_bind_isPanic p _
            | ok port1 =>
              rw [ok_bind]
              cases hB0 : listIdx (goSplitColon ((goFields line).getD 2 "")) 0 with
              | error e =>
                obtain ⟨p, hp⟩ := listIdx_error _ _ _ hB0
                subst hp
                exact error_bind_isPanic p _
              | ok b0 =>
                rw [ok_bind]
                cases hIP1 : hexToIP b0 with
                | error e =>
                  obtain ⟨p, hp⟩ := hexToIP_error _ _ hIP1
                  subst hp
                  exact error_bind_isPanic p _
                | ok ip1 =>
                  rw [ok_bind]
                  have hlen2 := goSplitColon_length_one _ hc2
                  rw [listIdx_oob _ 1 (by omega)]
                  exact error_bind_isPanic _ _

/-- Witness for C9: a 10-field line whose third field `00000000` has no
colon panics with index-out-of-range 1 of a 1-element split, and is
classified as a panic (not a MalformedLine error) by the theorem. -/
theorem parseIP_missing_colon_panics_witness :
    isPanicResult
      (parseIP "f" "0: 0100007F:13AD 00000000 0A 00 00 00 1000 0 42" "tcp") = true ∧
    parseIP "f" "0: 0100007F:13AD 00000000 0A 00 00 00 1000 0 42" "tcp" =
      .error (.panic (.indexOutOfRange 1 1)) := by
  refine ⟨parseIP_missing_colon_panics "f" "tcp"
    "0: 0100007F:13AD 00000000 0A 00 00 00 1000 0 42" (by decide)
    (Or.inr (by decide)), by decide⟩

/-- C10: on a short line the unix-domain and netlink decoders report the
field count as the literal 7 whatever the actual count, while the IP-based
decoder reports the observed count; all three report the given file name
and line content verbatim. -/
theorem malformedLine_reported_count :
    (∀ fn line proto, (goFields line).length < 7 →
      parseUnix fn line proto = .error (.malformedLine fn 7 line)) ∧
    (∀ fn line proto, (goFields line).length < 10 →
      parseNetlink fn line proto = .error (.malformedLine fn 7 line)) ∧
    (∀ fn line proto, (goFields line).length < 10 →
      parseIP fn line proto = .error (.malformedLine fn (goFields line).length line)) := by
  refine ⟨fun fn line proto h => ?_, fun fn line proto h => ?_, fun fn line proto h => ?_⟩
  · simp only [parseUnix]; rw [if_pos h]
  · simp only [parseNetlink]; rw [if_pos h]
  · simp only [parseIP]; rw [if_pos h]

/-- Witness for C10: the 2-field line `a b` is reported with count 7 by the
unix and netlink decoders and with the true count 2 by the IP decoder. -/
theorem malformedLine_reported_count_witness :
    parseUnix "f" "a b" "unix" = .error (.malformedLine "f" 7 "a b") ∧
    parseNetlink "f" "a b" "netlink" = .error (.malformedLine "f" 7 "a b") ∧
    parseIP "f" "a b" "tcp" = .error (.malformedLine "f" 2 "a b") ∧ (2 : Nat) ≠ 7 := by
  refine ⟨malformedLine_reported_count.1 "f" "a b" "unix" (by decide),
    malformedLine_reported_count.2.1 "f" "a b" "netlink" (by decide),
    (malformedLine_reported_count.2.2 "f" "a b" "tcp" (by decide)).trans (by decide),
    by decide⟩
